import Mathlib

/-!
Shallow embedding of the test classification and coverage engine of
`src/test_analyzer/analyzer.py` (repository `knowyourtests_ai`).

The filesystem is modelled as an `AnalyzerFS`: `walk` gives the
`(dirpath, filename)` pairs produced by `os.walk` (Python's `os.walk`
silently yields nothing for a nonexistent root, because errors from
`scandir` are ignored by default), and `read` gives the decoded content of
a file, `none` standing for an unreadable file (the source opens files
with `errors='ignore'`, so only I/O failures raise, landing in the
`except` branches).

Strings are treated at ASCII granularity; `re.IGNORECASE` is modelled by
lowercasing the subject and comparing literal pattern characters
caselessly.  Since `is_test_file` only uses the boolean outcome of
`re.search`, the pattern engine below uses existential (any-split)
semantics for `\s+`, `\s*`, `\w+` and `.*`, which agrees with Python's
backtracking search on whether a match exists.  The `re.finditer` used
for test-function extraction is position-sensitive, so it is embedded as
the exact left-to-right, non-overlapping scan; for the concrete pattern
`def\s+(test_\w+)\s*\(` backtracking can never succeed where maximal
munch fails (a shorter `\s+`/`\w+`/`\s*` run is always followed by a
character that refutes the next pattern element), so the deterministic
maximal-munch scan below is exact.
-/

namespace KYT

set_option maxHeartbeats 1000000

/-- ASCII whitespace, the characters matched by the regex class `\s`. -/
def isSpaceChar (c : Char) : Bool :=
  c = ' ' || c = '\t' || c = '\n' || c = '\r' || c = '\x0b' || c = '\x0c'

/-- ASCII word character, the characters matched by the regex class `\w`. -/
def isWordChar (c : Char) : Bool :=
  c.isAlpha || c.isDigit || c = '_'

/-- Leading run of characters satisfying `p`: the run and the rest. -/
def spanTake (p : Char → Bool) : List Char → List Char × List Char
  | [] => ([], [])
  | c :: cs =>
      if p c then
        let t := spanTake p cs
        (c :: t.1, t.2)
      else ([], c :: cs)

/-- Whether `needle` is a leading chunk of `hay` (character lists). -/
def startsWithChars : List Char → List Char → Bool
  | [], _ => true
  | _ :: _, [] => false
  | a :: as, b :: bs => a = b && startsWithChars as bs

/-- Whether `needle` occurs contiguously anywhere in `hay`, the embedding
of Python's `needle in hay` on strings. -/
def containsChars (needle : List Char) : List Char → Bool
  | [] => startsWithChars needle []
  | c :: t => startsWithChars needle (c :: t) || containsChars needle t

/-- Python's `needle in hay` substring test. -/
def strIn (needle hay : String) : Bool :=
  containsChars needle.data hay.data

/-- Python's `str.lower()` at ASCII granularity, applied characterwise. -/
def strLower (s : String) : String :=
  String.mk (s.data.map Char.toLower)

/-- Python's `str.startswith(pre)`. -/
def pyStartsWith (s pre : String) : Bool :=
  startsWithChars pre.data s.data

/-- Python's `str.endswith(suf)`. -/
def pyEndsWith (s suf : String) : Bool :=
  startsWithChars suf.data.reverse s.data.reverse

/-- Embedding of `os.path.split` for POSIX paths: everything up to the
last slash (trailing slashes stripped unless the head is all slashes)
and everything after it. -/
def splitPath (p : String) : String × String :=
  let cs := p.data
  match cs.reverse.findIdx? (fun c => c = '/') with
  | none => ("", p)
  | some j =>
      let cut := cs.length - j
      let head := cs.take cut
      let tail := cs.drop cut
      let head2 :=
        if head.all (fun c => c = '/') then head
        else ((head.reverse.dropWhile (fun c => c = '/')).reverse)
      (String.mk head2, String.mk tail)

/-- Embedding of `os.path.basename`. -/
def basename (p : String) : String := (splitPath p).2

/-- Embedding of `os.path.dirname`. -/
def dirname (p : String) : String := (splitPath p).1

/-- Embedding of `os.path.join(root, file)` for POSIX paths. -/
def joinPath (root f : String) : String :=
  if pyStartsWith f "/" then f
  else if root = "" || pyEndsWith root "/" then root ++ f
  else root ++ "/" ++ f

/-- Pattern elements of the regexes appearing in the analyzer's
`test_patterns` table. -/
inductive Tok where
  | lit : String → Tok
  | ws1 : Tok
  | ws0 : Tok
  | wd1 : Tok
  | dotStar : Tok
  | bol : Tok
  | eol : Tok
  | wb : Tok
  | alts : List String → Tok
deriving Repr

/-- Caseless consumption of a literal: on success, the character that now
precedes the rest (for word boundaries) and the remaining subject. -/
def dropLit : List Char → Option Char → List Char → Option (Option Char × List Char)
  | [], prev, cs => some (prev, cs)
  | _ :: _, _, [] => none
  | l :: ls, _, c :: cs =>
      if l.toLower = c.toLower then dropLit ls (some c) cs else none

/-- Last character of a consumed chunk, else the previous character. -/
def prevAfter (prev : Option Char) (taken : List Char) : Option Char :=
  match taken.getLast? with
  | some c => some c
  | none => prev

/-- Does `prev` hold a word character? -/
def prevIsWord (prev : Option Char) : Bool :=
  match prev with
  | some c => isWordChar c
  | none => false

/-- Does the subject start with a word character? -/
def nextIsWord (cs : List Char) : Bool :=
  match cs with
  | c :: _ => isWordChar c
  | [] => false

/-- Existential matching of a token list against a prefix of the subject.
`prev` is the character just before the current position (`none` at the
start of the whole subject).  Repetitions try every split, which for a
boolean `re.search` agrees with Python's backtracking. -/
def matchToks (toks : List Tok) (prev : Option Char) (cs : List Char) : Bool :=
  match toks with
  | [] => true
  | Tok.lit s :: rest =>
      match dropLit s.data prev cs with
      | some pc => matchToks rest pc.1 pc.2
      | none => false
  | Tok.ws1 :: rest =>
      (List.range (cs.length + 1)).any fun k =>
        decide (1 ≤ k) && (cs.take k).all isSpaceChar &&
          matchToks rest (prevAfter prev (cs.take k)) (cs.drop k)
  | Tok.ws0 :: rest =>
      (List.range (cs.length + 1)).any fun k =>
        (cs.take k).all isSpaceChar &&
          matchToks rest (prevAfter prev (cs.take k)) (cs.drop k)
  | Tok.wd1 :: rest =>
      (List.range (cs.length + 1)).any fun k =>
        decide (1 ≤ k) && (cs.take k).all isWordChar &&
          matchToks rest (prevAfter prev (cs.take k)) (cs.drop k)
  | Tok.dotStar :: rest =>
      (List.range (cs.length + 1)).any fun k =>
        (cs.take k).all (fun c => c ≠ '\n') &&
          matchToks rest (prevAfter prev (cs.take k)) (cs.drop k)
  | Tok.bol :: rest => prev.isNone && matchToks rest prev cs
  | Tok.eol :: rest => (decide (cs = []) || decide (cs = ['\n'])) && matchToks rest prev cs
  | Tok.wb :: rest => (prevIsWord prev != nextIsWord cs) && matchToks rest prev cs
  | Tok.alts ss :: rest =>
      ss.any fun s =>
        match dropLit s.data prev cs with
        | some pc => matchToks rest pc.1 pc.2
        | none => false

/-- Try the pattern at every start position, the embedding of `re.search`
returning whether any match exists. -/
def searchFrom (toks : List Tok) (prev : Option Char) (cs : List Char) : Bool :=
  matchToks toks prev cs ||
    match cs with
    | [] => false
    | c :: cs2 => searchFrom toks (some c) cs2

/-- Boolean `re.search(pattern, subject, re.IGNORECASE)`; the subject is
passed here already lowercased by the caller. -/
def reSearch (toks : List Tok) (subject : String) : Bool :=
  searchFrom toks none subject.data

/-- The `"unit"` entry of the analyzer's `test_patterns` dictionary. -/
def unitPatterns : List (List Tok) :=
  [ [Tok.lit "[Fact]"],
    [Tok.lit "[Theory]"],
    [Tok.lit "public", Tok.ws1, Tok.lit "void", Tok.ws1, Tok.wd1, Tok.lit "_Should"],
    [Tok.lit "public", Tok.ws1, Tok.lit "async", Tok.ws1, Tok.lit "Task", Tok.ws1, Tok.wd1,
      Tok.lit "_Should"],
    [Tok.lit "public", Tok.ws1, Tok.lit "void", Tok.ws1, Tok.lit "Test"],
    [Tok.lit "public", Tok.ws1, Tok.lit "async", Tok.ws1, Tok.lit "Task", Tok.ws1, Tok.lit "Test"],
    [Tok.lit "@Test"],
    [Tok.bol, Tok.lit "using", Tok.ws1, Tok.lit "xunit"],
    [Tok.bol, Tok.lit "using", Tok.ws1, Tok.lit "nunit"],
    [Tok.bol, Tok.lit "import", Tok.ws1, Tok.lit "junit"],
    [Tok.lit "test_", Tok.wd1, Tok.ws0, Tok.lit "("],
    [Tok.lit "def", Tok.ws1, Tok.lit "test_", Tok.wd1],
    [Tok.lit "[Test]"],
    [Tok.lit "@TestMethod"] ]

/-- The `"integration"` entry of `test_patterns`. -/
def integrationPatterns : List (List Tok) :=
  [ [Tok.lit "@SpringBootTest"],
    [Tok.lit "testcontainers"],
    [Tok.lit "with_database(", Tok.dotStar, Tok.lit ")"],
    [Tok.wb, Tok.lit "service", Tok.wb],
    [Tok.wb, Tok.lit "api", Tok.wb],
    [Tok.lit "IntegrationTest"] ]

/-- The `"e2e"` entry of `test_patterns`. -/
def e2ePatterns : List (List Tok) :=
  [ [Tok.lit "@E2ETest"],
    [Tok.wb, Tok.alts ["user", "login", "end-to-end", "browser", "e2e"], Tok.wb],
    [Tok.lit "e2e"],
    [Tok.lit ".spec.js", Tok.eol],
    [Tok.lit ".feature", Tok.eol],
    [Tok.lit "E2ETest"] ]

/-- The analyzer's `test_patterns` dictionary, in its iteration order
`unit`, `integration`, `e2e`. -/
def test_patterns : List (List (List Tok)) :=
  [unitPatterns, integrationPatterns, e2ePatterns]

/-- Content half of `is_test_file`: does any pattern of any layer match
the content, case-insensitively? -/
def isTestContent (content : String) : Bool :=
  test_patterns.any fun group => group.any fun pat => reSearch pat (strLower content)

/-- The filesystem as the analyzer observes it: `walk` is `os.walk`
(pairs of directory path and filename), `read` is opening and decoding a
file, `none` for an unreadable one. -/
structure AnalyzerFS where
  walk : String → List (String × String)
  read : String → Option String

/-- Embedding of `is_test_file`: an unreadable file falls into the
`except` branch and is reported as non-test. -/
def is_test_file (fs : AnalyzerFS) (file_path : String) : Bool :=
  match fs.read file_path with
  | none => false
  | some content => isTestContent content

/-- A test function extracted by `re.finditer(r'def\s+(test_\w+)\s*\(', content)`:
captured name and 1-based line number. -/
structure TestFunc where
  name : String
  line : Nat
deriving DecidableEq, Repr

/-- Match of `def\s+(test_\w+)\s*\(` at the head of the subject: returns
the word run after `test_` and the total matched length.  Maximal munch
is exact for this pattern (see the header comment). -/
def matchDefTestAt : List Char → Option (List Char × Nat)
  | 'd' :: 'e' :: 'f' :: rest =>
      let sp1 := spanTake isSpaceChar rest
      if sp1.1.isEmpty then none
      else
        match sp1.2 with
        | 't' :: 'e' :: 's' :: 't' :: '_' :: r2 =>
            let w := spanTake isWordChar r2
            if w.1.isEmpty then none
            else
              let sp2 := spanTake isSpaceChar w.2
              match sp2.2 with
              | '(' :: _ => some (w.1, 3 + sp1.1.length + 5 + w.1.length + sp2.1.length + 1)
              | _ => none
        | _ => none
  | _ => none

/-- Left-to-right, non-overlapping scan of `finditer`, tracking the
number of newlines seen so far so each match gets its 1-based line.  The
fuel argument only drives structural recursion: every step consumes at
least one character (a match is at least 11 characters long), so a fuel
of the subject's length makes the scan complete. -/
def scanTestsAux : Nat → List Char → Nat → List TestFunc
  | 0, _, _ => []
  | _ + 1, [], _ => []
  | fuel + 1, c :: cs, nl =>
      match matchDefTestAt (c :: cs) with
      | some wl =>
          { name := "test_" ++ String.mk wl.1, line := nl + 1 } ::
            scanTestsAux fuel (List.drop (wl.2 - 1) cs)
              (nl + (List.take wl.2 (c :: cs)).countP (fun ch => ch = '\n'))
      | none => scanTestsAux fuel cs (nl + if c = '\n' then 1 else 0)

/-- The test-function extraction of `count_test_cases_in_file`. -/
def extractTestFunctions (content : String) : List TestFunc :=
  scanTestsAux content.data.length content.data 0

/-- Match of `def\s+test_\w+` at the head of the subject (the coverage
pass's `re.findall` pattern), returning the matched length. -/
def matchDefTestPlainAt : List Char → Option Nat
  | 'd' :: 'e' :: 'f' :: rest =>
      let sp1 := spanTake isSpaceChar rest
      if sp1.1.isEmpty then none
      else
        match sp1.2 with
        | 't' :: 'e' :: 's' :: 't' :: '_' :: r2 =>
            let w := spanTake isWordChar r2
            if w.1.isEmpty then none else some (3 + sp1.1.length + 5 + w.1.length)
        | _ => none
  | _ => none

/-- Number of non-overlapping matches of `def\s+test_\w+`, the fueled
embedding of `len(re.findall(r'def\s+test_\w+', content))`; as in
`scanTestsAux`, a fuel of the subject's length completes the scan. -/
def scanCountAux : Nat → List Char → Nat
  | 0, _ => 0
  | _ + 1, [] => 0
  | fuel + 1, c :: cs =>
      match matchDefTestPlainAt (c :: cs) with
      | some len => 1 + scanCountAux fuel (List.drop (len - 1) cs)
      | none => scanCountAux fuel cs

/-- Entry point of the `def\s+test_\w+` occurrence count. -/
def scanCountDefTest (cs : List Char) : Nat :=
  scanCountAux cs.length cs

/-- Per-file counts for the three layers. -/
structure FileCounts where
  unit : Nat
  integration : Nat
  e2e : Nat
deriving DecidableEq, Repr

/-- Return value of `count_test_cases_in_file`. -/
structure FileResult where
  counts : FileCounts
  test_functions : List TestFunc
deriving DecidableEq, Repr

/-- The integration-identity signal of `count_test_cases_in_file`:
`'integration'` in the lowered filename, folder or full path, or the
(case-sensitive) marker `'@pytest.mark.integration'` in the content. -/
def integrationSignal (file_path content : String) : Bool :=
  strIn "integration" (strLower (basename file_path)) ||
  strIn "integration" (strLower (dirname file_path)) ||
  strIn "integration" (strLower file_path) ||
  strIn "@pytest.mark.integration" content

/-- The e2e-identity signal of `count_test_cases_in_file`. -/
def e2eSignal (file_path content : String) : Bool :=
  strIn "e2e" (strLower (basename file_path)) ||
  strIn "e2e" (strLower (dirname file_path)) ||
  strIn "e2e" (strLower file_path) ||
  strIn "@pytest.mark.e2e" content

/-- Embedding of `count_test_cases_in_file`.  The `except` branch (an
unreadable file) returns zero counts and no functions.  After extraction,
the integration and e2e counts are each set to the number of extracted
functions when the corresponding signal holds, and the unit count is the
same number unless one of the other two counts is positive. -/
def count_test_cases_in_file (fs : AnalyzerFS) (file_path : String) : FileResult :=
  match fs.read file_path with
  | none => { counts := ⟨0, 0, 0⟩, test_functions := [] }
  | some content =>
      let test_functions := extractTestFunctions content
      let n := test_functions.length
      let cInt := if integrationSignal file_path content then n else 0
      let cE2e := if e2eSignal file_path content then n else 0
      let cUnit :=
        if test_functions.isEmpty then 0
        else if cInt > 0 then 0
        else if cE2e > 0 then 0
        else n
      { counts := ⟨cUnit, cInt, cE2e⟩, test_functions := test_functions }

/-- The analyzer's `excluded_files` set (the source lists
`tsconfig.json` twice; membership is unaffected). -/
def excluded_files : List String :=
  ["package.json", "package-lock.json", "yarn.lock",
   "tsconfig.json", "jest.config.js", "pytest.ini",
   "conftest.py", "webpack.config.js", "babel.config.js",
   "karma.conf.js", "cypress.json", "playwright.config.js",
   "jest.config.ts", "tsconfig.json", "Gemfile", "Gemfile.lock",
   "go.mod", "go.sum", "Cargo.toml", "Cargo.lock",
   "composer.json", "composer.lock", "nuget.config",
   ".gitignore", "README.md", "requirements.txt",
   "setup.py", "pom.xml", "build.gradle"]

/-- The analyzer's `test_extensions` set. -/
def test_extensions : List String :=
  [".py", ".js", ".ts", ".java", ".kt", ".cs", ".rb", ".feature"]

/-- Embedding of `find_test_files`: walk the tree, skip excluded and
hidden filenames, keep allow-listed extensions, and retain the paths
whose content looks like test code. -/
def find_test_files (fs : AnalyzerFS) (repo_path : String) : List String :=
  (fs.walk repo_path).filterMap fun rf =>
    if excluded_files.contains rf.2 || pyStartsWith rf.2 "." then none
    else if !(test_extensions.any fun ext => pyEndsWith rf.2 ext) then none
    else if is_test_file fs (joinPath rf.1 rf.2) then some (joinPath rf.1 rf.2) else none

/-- One entry of the per-layer `*_tests` lists built by
`classify_tests_in_repo`. -/
structure FileEntry where
  file_path : String
  test_functions : List TestFunc
deriving DecidableEq, Repr

/-- The three classification layers. -/
inductive Layer where
  | unit
  | integration
  | e2e
deriving DecidableEq, Repr

/-- One record appended by `find_duplicate_tests_across_layers`. -/
structure DupEntry where
  function : String
  file : String
  line : Nat
  other_layers : List Layer
deriving DecidableEq, Repr

/-- The duplicates dictionary keyed by layer. -/
structure DupMap where
  unit : List DupEntry
  integration : List DupEntry
  e2e : List DupEntry
deriving DecidableEq, Repr

/-- The `results` dictionary of `classify_tests_in_repo`. -/
structure Results where
  unit_tests : List FileEntry
  integration_tests : List FileEntry
  e2e_tests : List FileEntry
  counts : FileCounts
  duplicate_tests : DupMap
deriving DecidableEq, Repr

/-- Layer-indexed access to the `*_tests` lists. -/
def layerTests (r : Results) : Layer → List FileEntry
  | Layer.unit => r.unit_tests
  | Layer.integration => r.integration_tests
  | Layer.e2e => r.e2e_tests

/-- The iteration order `['unit', 'integration', 'e2e']` of the source. -/
def allLayers : List Layer := [Layer.unit, Layer.integration, Layer.e2e]

/-- One occurrence of a test-function name. -/
structure Loc where
  layer : Layer
  file : String
  line : Nat
deriving DecidableEq, Repr

/-- The stream of `(name, location)` pairs in the order the first pass of
`find_duplicate_tests_across_layers` visits them. -/
def locStream (r : Results) : List (String × Loc) :=
  allLayers.flatMap fun t =>
    (layerTests r t).flatMap fun ti =>
      ti.test_functions.map fun f => (f.name, ⟨t, ti.file_path, f.line⟩)

/-- Insertion into the `all_functions` dictionary: append to an existing
key's list, else append a fresh key (Python dicts preserve insertion
order). -/
def addLoc : List (String × List Loc) → String → Loc → List (String × List Loc)
  | [], n, l => [(n, [l])]
  | (m, ls) :: rest, n, l =>
      if m = n then (m, ls ++ [l]) :: rest else (m, ls) :: addLoc rest n l

/-- First pass of `find_duplicate_tests_across_layers`: group locations
by function name, skipping falsy (empty) names. -/
def collectLocs (stream : List (String × Loc)) : List (String × List Loc) :=
  stream.foldl (fun acc nl => if nl.1 = "" then acc else addLoc acc nl.1 nl.2) []

/-- The set of distinct layers among a list of locations, represented in
the canonical layer order (the source builds a Python `set`, used only
through membership and difference). -/
def layersOf (locs : List Loc) : List Layer :=
  allLayers.filter fun t => locs.any fun l => l.layer = t

/-- Second pass, per name: when the name has more than one location,
yield one entry per location whose set of other layers is nonempty. -/
def entriesForName (name : String) (locs : List Loc) : List (Layer × DupEntry) :=
  if locs.length > 1 then
    locs.filterMap fun loc =>
      if ((layersOf locs).filter fun t => t ≠ loc.layer).isEmpty then none
      else some (loc.layer,
        { function := name, file := loc.file, line := loc.line,
          other_layers := (layersOf locs).filter fun t => t ≠ loc.layer })
  else []

/-- Append an entry to one layer's list of the duplicates dictionary. -/
def dupAppend (d : DupMap) : Layer → DupEntry → DupMap
  | Layer.unit, e => { d with unit := d.unit ++ [e] }
  | Layer.integration, e => { d with integration := d.integration ++ [e] }
  | Layer.e2e, e => { d with e2e := d.e2e ++ [e] }

/-- Layer-indexed access to the duplicates dictionary. -/
def dupGet (d : DupMap) : Layer → List DupEntry
  | Layer.unit => d.unit
  | Layer.integration => d.integration
  | Layer.e2e => d.e2e

/-- Embedding of the second (shadowing) definition of
`find_duplicate_tests_across_layers`; the first definition of the same
name in the source is dead code. -/
def find_duplicate_tests_across_layers (r : Results) : DupMap :=
  (collectLocs (locStream r)).foldl
    (fun d nl => (entriesForName nl.1 nl.2).foldl (fun d2 te => dupAppend d2 te.1 te.2) d)
    ⟨[], [], []⟩

/-- Aggregation step of `classify_tests_in_repo` for one analyzed file:
a file joins every layer list whose count is positive. -/
def classifyStep (acc : Results) (x : String × FileResult) : Results :=
  let acc1 :=
    if x.2.counts.unit > 0 then
      { acc with
          unit_tests := acc.unit_tests ++ [⟨x.1, x.2.test_functions⟩],
          counts := { acc.counts with unit := acc.counts.unit + x.2.counts.unit } }
    else acc
  let acc2 :=
    if x.2.counts.integration > 0 then
      { acc1 with
          integration_tests := acc1.integration_tests ++ [⟨x.1, x.2.test_functions⟩],
          counts := { acc1.counts with
            integration := acc1.counts.integration + x.2.counts.integration } }
    else acc1
  if x.2.counts.e2e > 0 then
    { acc2 with
        e2e_tests := acc2.e2e_tests ++ [⟨x.1, x.2.test_functions⟩],
        counts := { acc2.counts with e2e := acc2.counts.e2e + x.2.counts.e2e } }
  else acc2

/-- The freshly initialized `results` dictionary (the `duplicate_tests`
key is attached at the end of `classify_tests_in_repo`). -/
def initResults : Results :=
  { unit_tests := [], integration_tests := [], e2e_tests := [],
    counts := ⟨0, 0, 0⟩, duplicate_tests := ⟨[], [], []⟩ }

/-- Embedding of `classify_tests_in_repo`.  The thread-pool `map`
preserves input order, so it is an ordinary `List.map`. -/
def classify_tests_in_repo (fs : AnalyzerFS) (repo_path : String) : Results :=
  let test_files := find_test_files fs repo_path
  let file_results := test_files.map (count_test_cases_in_file fs)
  let base := (test_files.zip file_results).foldl classifyStep initResults
  { base with duplicate_tests := find_duplicate_tests_across_layers base }

/-- Per-file statistics of `calculate_test_coverage`. -/
structure FileCov where
  test_count : Nat
  total_functions : Nat
  coverage_percentage : ℚ
deriving DecidableEq, Repr

/-- Per-layer statistics of `calculate_test_coverage`. -/
structure LayerCov where
  test_count : Nat
  total_testable_functions : Nat
  coverage_percentage : ℚ
  files : List (String × FileCov)
deriving DecidableEq, Repr

/-- The coverage dictionary returned by `calculate_test_coverage`. -/
structure Coverage where
  unit : LayerCov
  integration : LayerCov
  e2e : LayerCov
deriving DecidableEq, Repr

/-- Embedding of the inner `get_testable_functions` helper: re-read the
file and count `def\s+test_\w+` matches; an unreadable file yields 0. -/
def get_testable_functions (fs : AnalyzerFS) (file_path : String) : Nat :=
  match fs.read file_path with
  | none => 0
  | some content => scanCountDefTest content.data

/-- Dictionary write `coverage[t]['files'][fp] = fc` (overwrite if the
key exists, else append). -/
def updateFileCov (files : List (String × FileCov)) (fp : String) (fc : FileCov) :
    List (String × FileCov) :=
  if files.any fun e => e.1 = fp then
    files.map fun e => if e.1 = fp then (fp, fc) else e
  else files ++ [(fp, fc)]

/-- The zero-initialized per-layer coverage record. -/
def zeroLayerCov : LayerCov :=
  { test_count := 0, total_testable_functions := 0, coverage_percentage := 0, files := [] }

/-- Per-file pass of `calculate_test_coverage` for one layer. -/
def coverLayerStep (fs : AnalyzerFS) (acc : LayerCov) (fi : FileEntry) : LayerCov :=
  let test_count := fi.test_functions.length
  let total_functions := get_testable_functions fs fi.file_path
  let filePct : ℚ :=
    if total_functions > 0 then (test_count : ℚ) / (total_functions : ℚ) * 100 else 0
  let fileCov : FileCov :=
    { test_count := test_count, total_functions := total_functions,
      coverage_percentage := filePct }
  { test_count := acc.test_count + test_count,
    total_testable_functions := acc.total_testable_functions + total_functions,
    coverage_percentage := acc.coverage_percentage,
    files := updateFileCov acc.files fi.file_path fileCov }

/-- Final pass of `calculate_test_coverage` for one layer: the overall
percentage is `min(100, covered/total*100)` when the total is positive,
else `0.0`. -/
def finishLayer (acc : LayerCov) : LayerCov :=
  if acc.total_testable_functions > 0 then
    let pct : ℚ := min 100 ((acc.test_count : ℚ) / (acc.total_testable_functions : ℚ) * 100)
    { acc with coverage_percentage := pct }
  else { acc with coverage_percentage := 0 }

/-- Embedding of `calculate_test_coverage`. -/
def calculate_test_coverage (fs : AnalyzerFS) (r : Results) : Coverage :=
  { unit := finishLayer (r.unit_tests.foldl (coverLayerStep fs) zeroLayerCov),
    integration := finishLayer (r.integration_tests.foldl (coverLayerStep fs) zeroLayerCov),
    e2e := finishLayer (r.e2e_tests.foldl (coverLayerStep fs) zeroLayerCov) }

/-- Layer-indexed access to the coverage dictionary. -/
def layerCovOf (cov : Coverage) : Layer → LayerCov
  | Layer.unit => cov.unit
  | Layer.integration => cov.integration
  | Layer.e2e => cov.e2e

/-- Lookup in the ordered association list modelling the
`all_functions` dictionary; absent keys give the empty list. -/
def lookupLocs : List (String × List Loc) → String → List Loc
  | [], _ => []
  | (m, ls) :: rest, n => if m = n then ls else lookupLocs rest n

/-- All locations carrying name `n` in a stream, in stream order. -/
def occsIn (stream : List (String × Loc)) (n : String) : List Loc :=
  stream.filterMap fun nl => if nl.1 = n then some nl.2 else none

/-- The occurrences of test-function name `n` across the classified
layer lists of `r`, in the order the duplicate detector visits them. -/
def occsOf (r : Results) (n : String) : List Loc :=
  occsIn (locStream r) n

/-- The duplicate entries recorded under layer `t` for name `n`. -/
def namedEntries (d : DupMap) (t : Layer) (n : String) : List DupEntry :=
  (dupGet d t).filter fun e => e.function = n

/-- The entries of one name's generation step that land in layer `t`
and carry function name `n`. -/
def layerContrib (t : Layer) (n : String) (tes : List (Layer × DupEntry)) : List DupEntry :=
  tes.filterMap fun te => if te.1 = t ∧ te.2.function = n then some te.2 else none

/-- Filesystem fixture for the counterexample to C1: a file whose path
matches both the integration and the e2e identity signal. -/
def fsC1 : AnalyzerFS :=
  ⟨fun _ => [],
   fun p => if p = "cloned_repos/integration/e2e_test.py"
     then some "def test_a(): pass" else none⟩

/-- Filesystem fixture for the witness of C1: a file carrying the
`@pytest.mark.integration` content marker. -/
def fsC1w : AnalyzerFS :=
  ⟨fun _ => [],
   fun p => if p = "repo/test_db.py"
     then some "@pytest.mark.integration\ndef test_db(): pass" else none⟩

/-- Classified-results fixture for the witness of C2: one name present
once under unit and once under e2e. -/
def rC2 : Results :=
  { unit_tests := [⟨"a.py", [⟨"test_dup", 1⟩]⟩],
    integration_tests := [],
    e2e_tests := [⟨"b.py", [⟨"test_dup", 5⟩]⟩],
    counts := ⟨1, 0, 1⟩, duplicate_tests := ⟨[], [], []⟩ }

/-- Filesystem fixture for the counterexample to C3: the file on disk
holds two `def test_` declarations. -/
def fsC3 : AnalyzerFS :=
  ⟨fun _ => [],
   fun p => if p = "f.py" then some "def test_a\ndef test_b" else none⟩

/-- Results fixture for the counterexample to C3: the recorded
classification lists three test functions for the same file, as happens
when the file shrinks between the classification read and the coverage
re-read (the source prints a COVERAGE WARNING for exactly this case). -/
def rC3 : Results :=
  { unit_tests := [⟨"f.py", [⟨"test_a", 1⟩, ⟨"test_b", 2⟩, ⟨"test_c", 3⟩]⟩],
    integration_tests := [], e2e_tests := [],
    counts := ⟨3, 0, 0⟩, duplicate_tests := ⟨[], [], []⟩ }

/-- Consistent fixture for the witness of C3. -/
def fsC3w : AnalyzerFS :=
  ⟨fun _ => [],
   fun p => if p = "g.py" then some "def test_a():\n  pass\ndef test_b():\n  pass" else none⟩

/-- Results fixture for the witness of C3. -/
def rC3w : Results :=
  { unit_tests := [⟨"g.py", [⟨"test_a", 1⟩, ⟨"test_b", 3⟩]⟩],
    integration_tests := [], e2e_tests := [],
    counts := ⟨2, 0, 0⟩, duplicate_tests := ⟨[], [], []⟩ }

/-- A filesystem with no entries at all: every walk is empty and every
read fails, as `os.walk` and `open` behave under a nonexistent root. -/
def fsEmpty : AnalyzerFS := ⟨fun _ => [], fun _ => none⟩

/-- Filesystem fixture for the witness of C7: readable files exist but
the walked root yields nothing. -/
def fsC7w : AnalyzerFS := ⟨fun _ => [], fun _ => some "def test_a()"⟩

/-- Filesystem fixture for the witness of C5: a file detected as a test
file through the `@Test` pattern but holding no Python declaration. -/
def fsC5 : AnalyzerFS :=
  ⟨fun _ => [], fun p => if p = "repo/CalcTests.java" then some "@Test" else none⟩

/-- Filesystem fixtures for the witness of C8: two contents equal up to
letter case. -/
def fsC8a : AnalyzerFS := ⟨fun _ => [], fun _ => some "Def Test_9()"⟩

/-- Second filesystem fixture for the witness of C8. -/
def fsC8b : AnalyzerFS := ⟨fun _ => [], fun _ => some "dEF tEST_9()"⟩

/-- Filesystem fixture for the witness of C9. -/
def fsC9 : AnalyzerFS :=
  ⟨fun r => if r = "repo" then [("repo", "a_test.py")] else [],
   fun p => if p = "repo/a_test.py" then some "def test_a()" else none⟩

/-- Filesystem fixture for the witness of C10: `integration` occurs only
inside a longer word of a directory above the repository root. -/
def fsC10 : AnalyzerFS :=
  ⟨fun _ => [],
   fun p => if p = "cloned_repos/myintegrationsuite/repo/calc_test.py"
     then some "def test_mul(): pass" else none⟩

/-! Helper lemmas about the embedded operations. -/

theorem mem_find_test_files {fs : AnalyzerFS} {root p : String}
    (hp : p ∈ find_test_files fs root) :
    ∃ rf, rf ∈ fs.walk root ∧ p = joinPath rf.1 rf.2 ∧
      excluded_files.contains rf.2 = false ∧
      pyStartsWith rf.2 "." = false ∧
      (test_extensions.any fun ext => pyEndsWith rf.2 ext) = true ∧
      is_test_file fs p = true := by
  unfold find_test_files at hp
  obtain ⟨rf, hrf, hsome⟩ := List.mem_filterMap.mp hp
  by_cases h1 : (excluded_files.contains rf.2 || pyStartsWith rf.2 ".") = true
  · rw [if_pos h1] at hsome
    cases hsome
  · rw [if_neg h1] at hsome
    have h1f : (excluded_files.contains rf.2 || pyStartsWith rf.2 ".") = false :=
      Bool.eq_false_iff.mpr h1
    by_cases h2 : (test_extensions.any fun ext => pyEndsWith rf.2 ext) = true
    · have h2n : ¬((!(test_extensions.any fun ext => pyEndsWith rf.2 ext)) = true) := by
        rw [h2]
        decide
      rw [if_neg h2n] at hsome
      by_cases h3 : is_test_file fs (joinPath rf.1 rf.2) = true
      · rw [if_pos h3] at hsome
        have heq : joinPath rf.1 rf.2 = p := Option.some.inj hsome
        refine ⟨rf, hrf, heq.symm, ?_, ?_, h2, heq ▸ h3⟩
        · exact (Bool.or_eq_false_iff.mp h1f).1
        · exact (Bool.or_eq_false_iff.mp h1f).2
      · rw [if_neg h3] at hsome
        cases hsome
    · have h2t : (!(test_extensions.any fun ext => pyEndsWith rf.2 ext)) = true := by
        rw [Bool.eq_false_iff.mpr h2]
        decide
      rw [if_pos h2t] at hsome
      cases hsome

theorem count_read_some {fs : AnalyzerFS} {p c : String} (hr : fs.read p = some c) :
    count_test_cases_in_file fs p =
      { counts :=
          ⟨(if (extractTestFunctions c).isEmpty then 0
            else if (if integrationSignal p c then (extractTestFunctions c).length else 0) > 0
              then 0
            else if (if e2eSignal p c then (extractTestFunctions c).length else 0) > 0 then 0
            else (extractTestFunctions c).length),
           (if integrationSignal p c then (extractTestFunctions c).length else 0),
           (if e2eSignal p c then (extractTestFunctions c).length else 0)⟩,
        test_functions := extractTestFunctions c } := by
  unfold count_test_cases_in_file
  rw [hr]

theorem count_unit_zero {fs : AnalyzerFS} {p c : String} (hr : fs.read p = some c)
    (hsig : integrationSignal p c = true ∨ e2eSignal p c = true) :
    (count_test_cases_in_file fs p).counts.unit = 0 := by
  rw [count_read_some hr]
  rcases hocc : extractTestFunctions c with _ | ⟨a, as⟩
  · simp
  · rcases hsig with hsig | hsig
    · simp [hsig]
    · by_cases hint : integrationSignal p c <;> simp [hsig, hint]

/-! Claim theorems. -/

/-- C4 (confirmed): when no test files are detected, the analysis
returns the freshly initialized result (empty layer lists, zero counts,
empty duplicates) and the coverage over it is all-zero; the embedding is
a total function, so no exception can propagate. -/
theorem C4_empty_repo (fs : AnalyzerFS) (root : String)
    (h : find_test_files fs root = []) :
    classify_tests_in_repo fs root = initResults ∧
      calculate_test_coverage fs (classify_tests_in_repo fs root) =
        { unit := zeroLayerCov, integration := zeroLayerCov, e2e := zeroLayerCov } := by
  have h1 : classify_tests_in_repo fs root = initResults := by
    unfold classify_tests_in_repo
    rw [h]
    rfl
  refine ⟨h1, ?_⟩
  rw [h1]
  rfl

/-- Witness for C4 at a concrete filesystem with no discoverable files. -/
theorem C4_empty_repo_witness :
    find_test_files fsEmpty "some/repo" = [] ∧
      classify_tests_in_repo fsEmpty "some/repo" = initResults ∧
      calculate_test_coverage fsEmpty (classify_tests_in_repo fsEmpty "some/repo") =
        { unit := zeroLayerCov, integration := zeroLayerCov, e2e := zeroLayerCov } :=
  ⟨by decide, (C4_empty_repo fsEmpty "some/repo" (by decide)).1,
    (C4_empty_repo fsEmpty "some/repo" (by decide)).2⟩

/-- C5 (confirmed): a file whose content yields no match of the Python
declaration shape `def test_<identifier>(` classifies to zero counts in
all three layers and an empty TestFunction list, whatever other layer
patterns it matches. -/
theorem C5_declaration_only (fs : AnalyzerFS) (p c : String)
    (hr : fs.read p = some c) (he : extractTestFunctions c = []) :
    count_test_cases_in_file fs p = { counts := ⟨0, 0, 0⟩, test_functions := [] } := by
  rw [count_read_some hr, he]
  simp

/-- Witness for C5: a file detected as a test file through the `@Test`
pattern still yields zero counts and no TestFunctions. -/
theorem C5_declaration_only_witness :
    is_test_file fsC5 "repo/CalcTests.java" = true ∧
      extractTestFunctions "@Test" = [] ∧
      count_test_cases_in_file fsC5 "repo/CalcTests.java" =
        { counts := ⟨0, 0, 0⟩, test_functions := [] } :=
  ⟨by decide, by decide,
    C5_declaration_only fsC5 "repo/CalcTests.java" "@Test" (by decide) (by decide)⟩

/-- C6 (confirmed): an unreadable file is reported as non-test, its
per-file analysis returns the empty classification, and it can never
occur among the discovered test files; the per-file `except` boundary is
total, so the failure does not propagate. -/
theorem C6_unreadable_file (fs : AnalyzerFS) (p : String) (h : fs.read p = none) :
    is_test_file fs p = false ∧
      count_test_cases_in_file fs p = { counts := ⟨0, 0, 0⟩, test_functions := [] } ∧
      ∀ root, p ∉ find_test_files fs root := by
  refine ⟨?_, ?_, ?_⟩
  · unfold is_test_file
    rw [h]
  · unfold count_test_cases_in_file
    rw [h]
  · intro root hmem
    obtain ⟨rf, _, _, _, _, _, htest⟩ := mem_find_test_files hmem
    unfold is_test_file at htest
    rw [h] at htest
    exact Bool.false_ne_true htest

/-- Witness for C6 at a concrete filesystem where every read fails. -/
theorem C6_unreadable_file_witness :
    fsEmpty.read "repo/broken.py" = none ∧
      is_test_file fsEmpty "repo/broken.py" = false ∧
      count_test_cases_in_file fsEmpty "repo/broken.py" =
        { counts := ⟨0, 0, 0⟩, test_functions := [] } :=
  ⟨rfl, (C6_unreadable_file fsEmpty "repo/broken.py" rfl).1,
    (C6_unreadable_file fsEmpty "repo/broken.py" rfl).2.1⟩

/-- C7 (corrected, counterexample): on a nonexistent repository root the
walk yields nothing (`os.walk` ignores `scandir` errors by default), and
the analysis returns the normal freshly initialized result instead of
surfacing a terminal failure. -/
theorem C7_counterexample :
    classify_tests_in_repo fsEmpty "/nonexistent/path" = initResults ∧
      initResults.unit_tests = [] ∧ initResults.integration_tests = [] ∧
      initResults.e2e_tests = [] ∧ initResults.counts = ⟨0, 0, 0⟩ := by
  decide

/-- C7 (amended): for any root whose walk yields no entries — in
particular an invalid or nonexistent root — the analysis returns the
normal empty result and never fails. -/
theorem C7_invalid_root (fs : AnalyzerFS) (root : String) (h : fs.walk root = []) :
    classify_tests_in_repo fs root = initResults := by
  have h0 : find_test_files fs root = [] := by
    unfold find_test_files
    rw [h]
    rfl
  unfold classify_tests_in_repo
  rw [h0]
  rfl

/-- Witness for the amended C7 at a concrete filesystem. -/
theorem C7_invalid_root_witness :
    fsC7w.walk "/bad/root" = [] ∧
      classify_tests_in_repo fsC7w "/bad/root" = initResults :=
  ⟨rfl, C7_invalid_root fsC7w "/bad/root" rfl⟩

/-- C8 (corrected, counterexample): two contents equal up to letter case
get the same test-file status, but the TestFunction extraction is
case-sensitive, so the extracted set changes when the declaration is
upper-cased — refuting the claim that it is unchanged. -/
theorem C8_counterexample :
    strLower "DEF TEST_X()" = "def test_x()" ∧
      isTestContent "def test_x()" = true ∧
      isTestContent "DEF TEST_X()" = true ∧
      extractTestFunctions "def test_x()" = [{ name := "test_x", line := 1 }] ∧
      extractTestFunctions "DEF TEST_X()" = [] := by
  refine ⟨by decide, by decide, by decide, by decide, by decide⟩

/-- C8 (amended): the layer pattern rules of `is_test_file` are matched
case-insensitively, so the test-file status of a file is unchanged when
the letter case of its content is altered; TestFunction extraction, by
contrast, is case-sensitive (see the counterexample). -/
theorem C8_case_invariant_detection (fs fs2 : AnalyzerFS) (p p2 c c2 : String)
    (h : fs.read p = some c) (h2 : fs2.read p2 = some c2)
    (hl : strLower c = strLower c2) :
    is_test_file fs p = is_test_file fs2 p2 := by
  unfold is_test_file
  rw [h, h2]
  show isTestContent c = isTestContent c2
  unfold isTestContent
  rw [hl]

/-- Witness for the amended C8 at two concrete case-variant contents. -/
theorem C8_case_invariant_detection_witness :
    strLower "Def Test_9()" = strLower "dEF tEST_9()" ∧
      is_test_file fsC8a "a.py" = is_test_file fsC8b "b.py" :=
  ⟨by decide,
    C8_case_invariant_detection fsC8a fsC8b "a.py" "b.py" "Def Test_9()" "dEF tEST_9()"
      rfl rfl (by decide)⟩

/-- C10 (confirmed): the integration and e2e identity signals include a
plain substring test on the whole lowercased path, so `integration`
(resp. `e2e`) occurring anywhere in it — also above the repository root
or inside a longer word — makes every TestFunction count in that layer
and zeroes the unit count. -/
theorem C10_path_substring (fs : AnalyzerFS) (p c : String) (hr : fs.read p = some c) :
    (strIn "integration" (strLower p) = true →
        (count_test_cases_in_file fs p).counts.integration =
            (count_test_cases_in_file fs p).test_functions.length ∧
          (count_test_cases_in_file fs p).counts.unit = 0) ∧
    (strIn "e2e" (strLower p) = true →
        (count_test_cases_in_file fs p).counts.e2e =
            (count_test_cases_in_file fs p).test_functions.length ∧
          (count_test_cases_in_file fs p).counts.unit = 0) := by
  constructor
  · intro hsub
    have hsig : integrationSignal p c = true := by
      unfold integrationSignal
      rw [hsub]
      simp
    refine ⟨?_, count_unit_zero hr (Or.inl hsig)⟩
    rw [count_read_some hr]
    simp [hsig]
  · intro hsub
    have hsig : e2eSignal p c = true := by
      unfold e2eSignal
      rw [hsub]
      simp
    refine ⟨?_, count_unit_zero hr (Or.inr hsig)⟩
    rw [count_read_some hr]
    simp [hsig]

/-- Witness for C10: `integration` occurs only inside the longer word
`myintegrationsuite` of a clone directory above the repository root. -/
theorem C10_path_substring_witness :
    strIn "integration" (strLower "cloned_repos/myintegrationsuite/repo/calc_test.py")
        = true ∧
      (count_test_cases_in_file fsC10
          "cloned_repos/myintegrationsuite/repo/calc_test.py").counts.integration =
        (count_test_cases_in_file fsC10
          "cloned_repos/myintegrationsuite/repo/calc_test.py").test_functions.length ∧
      (count_test_cases_in_file fsC10
          "cloned_repos/myintegrationsuite/repo/calc_test.py").counts.unit = 0 :=
  ⟨by decide,
    ((C10_path_substring fsC10 "cloned_repos/myintegrationsuite/repo/calc_test.py"
        "def test_mul(): pass" (by decide)).1 (by decide)).1,
    ((C10_path_substring fsC10 "cloned_repos/myintegrationsuite/repo/calc_test.py"
        "def test_mul(): pass" (by decide)).1 (by decide)).2⟩

/-- C1 (corrected, counterexample): a file matching both the integration
and the e2e identity signal has its TestFunction counted in *both*
layers — the integration count is not zeroed in favor of e2e, refuting
the exclusive-priority reading; only the unit count is zeroed. -/
theorem C1_counterexample :
    integrationSignal "cloned_repos/integration/e2e_test.py" "def test_a(): pass" = true ∧
      e2eSignal "cloned_repos/integration/e2e_test.py" "def test_a(): pass" = true ∧
      (count_test_cases_in_file fsC1 "cloned_repos/integration/e2e_test.py").counts =
        ⟨0, 1, 1⟩ := by
  refine ⟨by decide, by decide, by decide⟩

/-- C1 (amended): a file matching the integration (resp. e2e) identity
signal has all its TestFunctions attributed to that layer and none to
unit; when both signals hold the functions are attributed to both
layers, not exclusively to e2e. -/
theorem C1_signal_attribution (fs : AnalyzerFS) (p c : String) (hr : fs.read p = some c) :
    (integrationSignal p c = true →
        (count_test_cases_in_file fs p).counts.integration =
            (count_test_cases_in_file fs p).test_functions.length ∧
          (count_test_cases_in_file fs p).counts.unit = 0) ∧
    (e2eSignal p c = true →
        (count_test_cases_in_file fs p).counts.e2e =
            (count_test_cases_in_file fs p).test_functions.length ∧
          (count_test_cases_in_file fs p).counts.unit = 0) := by
  constructor
  · intro hsig
    refine ⟨?_, count_unit_zero hr (Or.inl hsig)⟩
    rw [count_read_some hr]
    simp [hsig]
  · intro hsig
    refine ⟨?_, count_unit_zero hr (Or.inr hsig)⟩
    rw [count_read_some hr]
    simp [hsig]

theorem finishLayer_fields (acc : LayerCov) :
    (finishLayer acc).test_count = acc.test_count ∧
      (finishLayer acc).total_testable_functions = acc.total_testable_functions := by
  unfold finishLayer
  split <;> exact ⟨rfl, rfl⟩

theorem finishLayer_spec (acc : LayerCov) :
    0 ≤ (finishLayer acc).coverage_percentage ∧
      (finishLayer acc).coverage_percentage ≤ 100 ∧
      (0 < (finishLayer acc).total_testable_functions →
        (finishLayer acc).coverage_percentage =
          min 100 (((finishLayer acc).test_count : ℚ) /
            ((finishLayer acc).total_testable_functions : ℚ) * 100)) ∧
      ((finishLayer acc).total_testable_functions = 0 →
        (finishLayer acc).coverage_percentage = 0) := by
  obtain ⟨hc, ht⟩ := finishLayer_fields acc
  by_cases h : acc.total_testable_functions > 0
  · have hval : (finishLayer acc).coverage_percentage =
        min 100 ((acc.test_count : ℚ) / (acc.total_testable_functions : ℚ) * 100) := by
      unfold finishLayer
      rw [if_pos h]
    have hnn : (0 : ℚ) ≤ (acc.test_count : ℚ) / (acc.total_testable_functions : ℚ) * 100 := by
      positivity
    refine ⟨?_, ?_, ?_, ?_⟩
    · rw [hval]
      exact le_min (by norm_num) hnn
    · rw [hval]
      exact min_le_left _ _
    · intro _
      rw [hval, hc, ht]
    · intro h0
      rw [ht] at h0
      omega
  · have h0 : acc.total_testable_functions = 0 := by omega
    have hval : (finishLayer acc).coverage_percentage = 0 := by
      unfold finishLayer
      rw [if_neg h]
    refine ⟨?_, ?_, ?_, ?_⟩
    · rw [hval]
    · rw [hval]
      norm_num
    · intro hpos
      rw [ht, h0] at hpos
      omega
    · intro _
      exact hval

/-- C3 (amended): every layer's coverage percentage lies in `[0, 100]`;
when the layer's total is positive the percentage equals
`min(100, covered/total*100)` — clamped, not the bare ratio — and when
the total is zero the percentage is exactly zero. -/
theorem C3_coverage_bounds (fs : AnalyzerFS) (r : Results) (t : Layer) :
    0 ≤ (layerCovOf (calculate_test_coverage fs r) t).coverage_percentage ∧
      (layerCovOf (calculate_test_coverage fs r) t).coverage_percentage ≤ 100 ∧
      (0 < (layerCovOf (calculate_test_coverage fs r) t).total_testable_functions →
        (layerCovOf (calculate_test_coverage fs r) t).coverage_percentage =
          min 100 (((layerCovOf (calculate_test_coverage fs r) t).test_count : ℚ) /
            ((layerCovOf (calculate_test_coverage fs r) t).total_testable_functions : ℚ)
              * 100)) ∧
      ((layerCovOf (calculate_test_coverage fs r) t).total_testable_functions = 0 →
        (layerCovOf (calculate_test_coverage fs r) t).coverage_percentage = 0) := by
  cases t
  · exact finishLayer_spec (r.unit_tests.foldl (coverLayerStep fs) zeroLayerCov)
  · exact finishLayer_spec (r.integration_tests.foldl (coverLayerStep fs) zeroLayerCov)
  · exact finishLayer_spec (r.e2e_tests.foldl (coverLayerStep fs) zeroLayerCov)

/-- Witness for the amended C3 at a consistent concrete repository. -/
theorem C3_coverage_bounds_witness :
    0 < (layerCovOf (calculate_test_coverage fsC3w rC3w) Layer.unit).total_testable_functions ∧
      (layerCovOf (calculate_test_coverage fsC3w rC3w) Layer.unit).coverage_percentage =
        min 100 (((layerCovOf (calculate_test_coverage fsC3w rC3w)
            Layer.unit).test_count : ℚ) /
          ((layerCovOf (calculate_test_coverage fsC3w rC3w)
            Layer.unit).total_testable_functions : ℚ) * 100) :=
  ⟨by decide, (C3_coverage_bounds fsC3w rC3w Layer.unit).2.2.1 (by decide)⟩

/-- C3 (corrected, counterexample): when the recorded test count exceeds
the re-read total — the situation the source's COVERAGE WARNING guards —
the percentage is clamped to 100 and no longer equals
`covered/total*100`, refuting the claim as stated. -/
theorem C3_counterexample :
    (calculate_test_coverage fsC3 rC3).unit.test_count = 3 ∧
      (calculate_test_coverage fsC3 rC3).unit.total_testable_functions = 2 ∧
      (calculate_test_coverage fsC3 rC3).unit.coverage_percentage = 100 ∧
      (calculate_test_coverage fsC3 rC3).unit.coverage_percentage ≠
        ((calculate_test_coverage fsC3 rC3).unit.test_count : ℚ) /
          ((calculate_test_coverage fsC3 rC3).unit.total_testable_functions : ℚ) * 100 := by
  have h3 : (calculate_test_coverage fsC3 rC3).unit.test_count = 3 := by decide
  have h2 : (calculate_test_coverage fsC3 rC3).unit.total_testable_functions = 2 := by decide
  have hpct : (calculate_test_coverage fsC3 rC3).unit.coverage_percentage =
      min 100 (((calculate_test_coverage fsC3 rC3).unit.test_count : ℚ) /
        ((calculate_test_coverage fsC3 rC3).unit.total_testable_functions : ℚ) * 100) :=
    (finishLayer_spec (rC3.unit_tests.foldl (coverLayerStep fsC3) zeroLayerCov)).2.2.1
      (by rw [show (finishLayer (rC3.unit_tests.foldl (coverLayerStep fsC3)
        zeroLayerCov)).total_testable_functions = 2 from by decide]; omega)
  rw [h3, h2] at hpct
  have hval : ((3 : ℕ) : ℚ) / ((2 : ℕ) : ℚ) * 100 = 150 := by norm_num
  rw [hval, min_eq_left (by norm_num : (100 : ℚ) ≤ 150)] at hpct
  refine ⟨h3, h2, hpct, ?_⟩
  rw [h3, h2, hpct, hval]
  norm_num

/-- C9 (confirmed): every discovered path comes from a walked entry that
passes the deny-list, hidden-name and extension filters and whose
content matches some layer pattern; a retained candidate is reported
exactly when some pattern of some layer matches its content. -/
theorem C9_discovery_filters (fs : AnalyzerFS) (root : String) :
    (∀ p, p ∈ find_test_files fs root →
      ∃ rf, rf ∈ fs.walk root ∧ p = joinPath rf.1 rf.2 ∧
        excluded_files.contains rf.2 = false ∧
        pyStartsWith rf.2 "." = false ∧
        (test_extensions.any fun ext => pyEndsWith rf.2 ext) = true ∧
        is_test_file fs p = true) ∧
    (∀ rf, rf ∈ fs.walk root →
      excluded_files.contains rf.2 = false →
      pyStartsWith rf.2 "." = false →
      (test_extensions.any fun ext => pyEndsWith rf.2 ext) = true →
      (joinPath rf.1 rf.2 ∈ find_test_files fs root ↔
        is_test_file fs (joinPath rf.1 rf.2) = true)) ∧
    (∀ p c, fs.read p = some c →
      (is_test_file fs p = true ↔
        ∃ group ∈ test_patterns, ∃ pat ∈ group, reSearch pat (strLower c) = true)) := by
  refine ⟨fun p hp => mem_find_test_files hp, ?_, ?_⟩
  · intro rf hrf hexc hhid hext
    constructor
    · intro hmem
      obtain ⟨rf2, _, heq, _, _, _, htest⟩ := mem_find_test_files hmem
      exact htest
    · intro htest
      refine List.mem_filterMap.mpr ⟨rf, hrf, ?_⟩
      have hcond : (excluded_files.contains rf.2 || pyStartsWith rf.2 ".") = false := by
        rw [hexc, hhid]
        rfl
      rw [if_neg (by rw [hcond]; exact Bool.false_ne_true)]
      have h2n : ¬((!(test_extensions.any fun ext => pyEndsWith rf.2 ext)) = true) := by
        rw [hext]
        decide
      rw [if_neg h2n, if_pos htest]
  · intro p c hc
    unfold is_test_file
    rw [hc]
    show isTestContent c = true ↔ _
    unfold isTestContent
    simp [List.any_eq_true]

/-- Witness for C9 at a concrete one-file repository. -/
theorem C9_discovery_filters_witness :
    ("repo", "a_test.py") ∈ fsC9.walk "repo" ∧
      excluded_files.contains "a_test.py" = false ∧
      pyStartsWith "a_test.py" "." = false ∧
      (test_extensions.any fun ext => pyEndsWith "a_test.py" ext) = true ∧
      (joinPath "repo" "a_test.py" ∈ find_test_files fsC9 "repo" ↔
        is_test_file fsC9 (joinPath "repo" "a_test.py") = true) :=
  ⟨by decide, by decide, by decide, by decide,
    (C9_discovery_filters fsC9 "repo").2.1 ("repo", "a_test.py")
      (by decide) (by decide) (by decide) (by decide)⟩

/-- Witness for the amended C1: the integration signal raised through
the `@pytest.mark.integration` content marker. -/
theorem C1_signal_attribution_witness :
    integrationSignal "repo/test_db.py" "@pytest.mark.integration\ndef test_db(): pass"
        = true ∧
      (count_test_cases_in_file fsC1w "repo/test_db.py").counts.integration =
        (count_test_cases_in_file fsC1w "repo/test_db.py").test_functions.length ∧
      (count_test_cases_in_file fsC1w "repo/test_db.py").counts.unit = 0 :=
  ⟨by decide,
    ((C1_signal_attribution fsC1w "repo/test_db.py"
        "@pytest.mark.integration\ndef test_db(): pass" (by decide)).1 (by decide)).1,
    ((C1_signal_attribution fsC1w "repo/test_db.py"
        "@pytest.mark.integration\ndef test_db(): pass" (by decide)).1 (by decide)).2⟩

/-! Lemmas characterizing the duplicate detector. -/

theorem lookup_addLoc (acc : List (String × List Loc)) (m n : String) (l : Loc) :
    lookupLocs (addLoc acc m l) n =
      if m = n then lookupLocs acc n ++ [l] else lookupLocs acc n := by
  induction acc with
  | nil => by_cases hmn : m = n <;> simp [addLoc, lookupLocs, hmn]
  | cons hd tl ih =>
      obtain ⟨k, ls⟩ := hd
      by_cases hkm : k = m
      · subst hkm
        by_cases hkn : k = n <;> simp [addLoc, lookupLocs, hkn]
      · by_cases hkn : k = n
        · subst hkn
          have hmn : ¬ m = k := fun h => hkm h.symm
          simp [addLoc, lookupLocs, hkm, hmn]
        · simp [addLoc, lookupLocs, hkm, hkn, ih]

theorem occsIn_cons (m : String) (l : Loc) (tl : List (String × Loc)) (n : String) :
    occsIn ((m, l) :: tl) n = (if m = n then [l] else []) ++ occsIn tl n := by
  by_cases hmn : m = n <;> simp [occsIn, List.filterMap_cons, hmn]

theorem lookup_foldl_addLoc (stream : List (String × Loc)) (acc : List (String × List Loc))
    (n : String) (hn : n ≠ "") :
    lookupLocs (stream.foldl (fun a nl => if nl.1 = "" then a else addLoc a nl.1 nl.2) acc) n =
      lookupLocs acc n ++ occsIn stream n := by
  induction stream generalizing acc with
  | nil => simp [occsIn]
  | cons hd tl ih =>
      obtain ⟨m, l⟩ := hd
      rw [List.foldl_cons, occsIn_cons]
      by_cases hm : m = ""
      · have hmn : ¬ m = n := fun h => hn (h.symm.trans hm)
        rw [if_pos hm, if_neg hmn, ih acc, List.nil_append]
      · rw [if_neg hm, ih (addLoc acc m l), lookup_addLoc]
        by_cases hmn : m = n
        · rw [if_pos hmn, if_pos hmn]
          simp
        · rw [if_neg hmn, if_neg hmn, List.nil_append]

theorem lookup_collectLocs (stream : List (String × Loc)) (n : String) (hn : n ≠ "") :
    lookupLocs (collectLocs stream) n = occsIn stream n := by
  have h := lookup_foldl_addLoc stream [] n hn
  simpa [collectLocs, lookupLocs] using h

theorem keys_addLoc (acc : List (String × List Loc)) (m : String) (l : Loc) :
    (addLoc acc m l).map Prod.fst =
      if m ∈ acc.map Prod.fst then acc.map Prod.fst else acc.map Prod.fst ++ [m] := by
  induction acc with
  | nil => simp [addLoc]
  | cons hd tl ih =>
      obtain ⟨k, ls⟩ := hd
      by_cases hkm : k = m
      · subst hkm
        simp [addLoc]
      · have hmk : ¬ m = k := fun h => hkm h.symm
        by_cases hmem : m ∈ tl.map Prod.fst <;>
          simp [addLoc, hkm, ih, hmem, hmk]

theorem nodup_keys_collect (stream : List (String × Loc)) :
    ((collectLocs stream).map Prod.fst).Nodup := by
  have aux : ∀ acc : List (String × List Loc), (acc.map Prod.fst).Nodup →
      (((stream.foldl (fun a nl => if nl.1 = "" then a else addLoc a nl.1 nl.2)
        acc)).map Prod.fst).Nodup := by
    induction stream with
    | nil => exact fun acc h => h
    | cons hd tl ih =>
        intro acc h
        rw [List.foldl_cons]
        by_cases hm : hd.1 = ""
        · rw [if_pos hm]
          exact ih acc h
        · rw [if_neg hm]
          apply ih
          rw [keys_addLoc]
          by_cases hmem : hd.1 ∈ acc.map Prod.fst
          · rw [if_pos hmem]
            exact h
          · rw [if_neg hmem]
            refine List.Nodup.append h (List.nodup_singleton _) ?_
            intro x hx hxa
            rw [List.mem_singleton] at hxa
            subst hxa
            exact hmem hx
  exact aux [] (by simp)

theorem entriesForName_function {m : String} {locs : List Loc} {te : Layer × DupEntry}
    (h : te ∈ entriesForName m locs) : te.2.function = m := by
  unfold entriesForName at h
  split at h
  · obtain ⟨loc, _, hsome⟩ := List.mem_filterMap.mp h
    split at hsome
    · cases hsome
    · cases hsome
      rfl
  · cases h

theorem layerContrib_ne {m n : String} (t : Layer) (locs : List Loc) (hm : m ≠ n) :
    layerContrib t n (entriesForName m locs) = [] := by
  unfold layerContrib
  rw [List.filterMap_eq_nil_iff]
  intro te hte
  rw [if_neg]
  rintro ⟨-, h2⟩
  rw [entriesForName_function hte] at h2
  exact hm h2

theorem flatMap_no_key (tl : List (String × List Loc)) (t : Layer) (n : String)
    (h : n ∉ tl.map Prod.fst) :
    (tl.flatMap fun nl => layerContrib t n (entriesForName nl.1 nl.2)) = [] := by
  induction tl with
  | nil => rfl
  | cons hd tl2 ih =>
      rw [List.flatMap_cons]
      have hne : hd.1 ≠ n := by
        intro he
        exact h (by simp [he.symm])
      rw [layerContrib_ne t hd.2 hne, List.nil_append]
      exact ih fun hmem => h (by simp [hmem])

theorem flatMap_contrib (items : List (String × List Loc)) (t : Layer) (n : String)
    (hnd : (items.map Prod.fst).Nodup) :
    (items.flatMap fun nl => layerContrib t n (entriesForName nl.1 nl.2)) =
      layerContrib t n (entriesForName n (lookupLocs items n)) := by
  induction items with
  | nil => simp [lookupLocs, entriesForName, layerContrib]
  | cons hd tl ih =>
      obtain ⟨m, locs⟩ := hd
      rw [List.flatMap_cons]
      have h1 : m ∉ tl.map Prod.fst ∧ (tl.map Prod.fst).Nodup := by
        simpa [List.nodup_cons] using hnd
      by_cases hm : m = n
      · subst hm
        rw [flatMap_no_key tl t m h1.1]
        simp [lookupLocs]
      · rw [layerContrib_ne t locs hm, List.nil_append, ih h1.2]
        simp [lookupLocs, hm]

theorem namedEntries_dupAppend (d : DupMap) (t2 t : Layer) (e : DupEntry) (n : String) :
    namedEntries (dupAppend d t2 e) t n =
      namedEntries d t n ++ (if t2 = t ∧ e.function = n then [e] else []) := by
  by_cases he : e.function = n
  · cases t2 <;> cases t <;>
      simp [dupAppend, dupGet, namedEntries, List.filter_append, he]
  · cases t2 <;> cases t <;>
      simp [dupAppend, dupGet, namedEntries, List.filter_append, he]

theorem namedEntries_innerFold (tes : List (Layer × DupEntry)) (d : DupMap) (t : Layer)
    (n : String) :
    namedEntries (tes.foldl (fun d2 te => dupAppend d2 te.1 te.2) d) t n =
      namedEntries d t n ++ layerContrib t n tes := by
  induction tes generalizing d with
  | nil => simp [layerContrib]
  | cons te tl ih =>
      rw [List.foldl_cons, ih, namedEntries_dupAppend]
      by_cases hc : te.1 = t ∧ te.2.function = n
      · simp [layerContrib, List.filterMap_cons, hc]
      · simp [layerContrib, List.filterMap_cons, hc]

theorem namedEntries_outerFold (items : List (String × List Loc)) (d : DupMap) (t : Layer)
    (n : String) :
    namedEntries (items.foldl (fun d2 nl => (entriesForName nl.1 nl.2).foldl
        (fun d3 te => dupAppend d3 te.1 te.2) d2) d) t n =
      namedEntries d t n ++
        (items.flatMap fun nl => layerContrib t n (entriesForName nl.1 nl.2)) := by
  induction items generalizing d with
  | nil => simp
  | cons hd tl ih =>
      rw [List.foldl_cons, ih, namedEntries_innerFold, List.flatMap_cons,
        List.append_assoc]

theorem dups_characterization (r : Results) (n : String) (hn : n ≠ "") (t : Layer) :
    namedEntries (find_duplicate_tests_across_layers r) t n =
      layerContrib t n (entriesForName n (occsOf r n)) := by
  unfold find_duplicate_tests_across_layers
  rw [namedEntries_outerFold]
  have h0 : namedEntries (⟨[], [], []⟩ : DupMap) t n = [] := by
    cases t <;> rfl
  rw [h0, List.nil_append, flatMap_contrib _ t n (nodup_keys_collect _),
    lookup_collectLocs _ n hn]
  rfl

theorem entriesForName_single_layer (n : String) (occs : List Loc)
    (h : (layersOf occs).length ≤ 1) : entriesForName n occs = [] := by
  unfold entriesForName
  split
  · rw [List.filterMap_eq_nil_iff]
    intro loc hloc
    have hmem : loc.layer ∈ layersOf occs := by
      unfold layersOf
      rw [List.mem_filter]
      refine ⟨by cases loc.layer <;> simp [allLayers], ?_⟩
      rw [List.any_eq_true]
      exact ⟨loc, hloc, by simp⟩
    have hsingle : layersOf occs = [loc.layer] := by
      rcases h2 : layersOf occs with _ | ⟨x, _ | ⟨y, tl⟩⟩
      · rw [h2] at hmem
        cases hmem
      · rw [h2] at hmem
        rw [List.mem_singleton] at hmem
        rw [hmem]
      · rw [h2] at h
        simp at h
    rw [if_pos]
    rw [hsingle]
    simp
  · rfl

theorem entriesForName_pair (n : String) (l1 l2 : Loc) (hne : l1.layer ≠ l2.layer) :
    entriesForName n [l1, l2] =
      [(l1.layer, ⟨n, l1.file, l1.line, [l2.layer]⟩),
       (l2.layer, ⟨n, l2.file, l2.line, [l1.layer]⟩)] := by
  obtain ⟨t1, f1, n1⟩ := l1
  obtain ⟨t2, f2, n2⟩ := l2
  cases t1 <;> cases t2 <;> first
    | exact absurd rfl hne
    | rfl

/-- C2 (confirmed): for any classified results and any nonempty test
function name, a name whose occurrences span at most one distinct layer
gets no DuplicateEntry in any layer (in particular when it occurs in
several files of the same layer); a name occurring exactly once in each
of two distinct layers gets exactly two entries, one per layer, each
listing the other layer as its other layers, and nothing in the third
layer. -/
theorem C2_duplicate_detection (r : Results) (n : String) (hn : n ≠ "") :
    ((layersOf (occsOf r n)).length ≤ 1 →
      ∀ t, namedEntries (find_duplicate_tests_across_layers r) t n = []) ∧
    (∀ l1 l2, occsOf r n = [l1, l2] → l1.layer ≠ l2.layer →
      namedEntries (find_duplicate_tests_across_layers r) l1.layer n =
        [{ function := n, file := l1.file, line := l1.line, other_layers := [l2.layer] }] ∧
      namedEntries (find_duplicate_tests_across_layers r) l2.layer n =
        [{ function := n, file := l2.file, line := l2.line, other_layers := [l1.layer] }] ∧
      ∀ t, t ≠ l1.layer → t ≠ l2.layer →
        namedEntries (find_duplicate_tests_across_layers r) t n = []) := by
  constructor
  · intro h t
    rw [dups_characterization r n hn t, entriesForName_single_layer n _ h]
    rfl
  · intro l1 l2 hocc hne
    have hpair := entriesForName_pair n l1 l2 hne
    refine ⟨?_, ?_, ?_⟩
    · rw [dups_characterization r n hn l1.layer, hocc, hpair]
      simp [layerContrib, List.filterMap_cons, Ne.symm hne]
    · rw [dups_characterization r n hn l2.layer, hocc, hpair]
      simp [layerContrib, List.filterMap_cons, hne]
    · intro t ht1 ht2
      rw [dups_characterization r n hn t, hocc, hpair]
      simp [layerContrib, List.filterMap_cons, Ne.symm ht1, Ne.symm ht2]

/-- Witness for C2 at a concrete classification with one name occurring
under unit and e2e. -/
theorem C2_duplicate_detection_witness :
    occsOf rC2 "test_dup" =
      [{ layer := Layer.unit, file := "a.py", line := 1 },
       { layer := Layer.e2e, file := "b.py", line := 5 }] ∧
    namedEntries (find_duplicate_tests_across_layers rC2) Layer.unit "test_dup" =
      [{ function := "test_dup", file := "a.py", line := 1, other_layers := [Layer.e2e] }] ∧
    namedEntries (find_duplicate_tests_across_layers rC2) Layer.e2e "test_dup" =
      [{ function := "test_dup", file := "b.py", line := 5, other_layers := [Layer.unit] }] :=
  ⟨by decide,
    ((C2_duplicate_detection rC2 "test_dup" (by decide)).2
      { layer := Layer.unit, file := "a.py", line := 1 }
      { layer := Layer.e2e, file := "b.py", line := 5 } (by decide) (by decide)).1,
    ((C2_duplicate_detection rC2 "test_dup" (by decide)).2
      { layer := Layer.unit, file := "a.py", line := 1 }
      { layer := Layer.e2e, file := "b.py", line := 5 } (by decide) (by decide)).2.1⟩

end KYT
